import Mathlib

/-!
Shallow embedding of the order-builder core of the `anish-binance-bot`
repository (files `src/basic_bot.py`, `src/market_orders.py`,
`src/limit_orders.py`, `src/advanced/stop_limit.py`, `src/advanced/oco.py`,
`src/advanced/twap.py`, `src/advanced/grid.py`).

Modelling conventions:
* Python floats are modelled as exact rationals (`ℚ`).
* The remote exchange client is modelled as an `Env` of deterministic
  oracles indexed by a per-kind call counter (the n-th metadata fetch,
  the n-th ticker fetch, the n-th order-creation attempt of one builder
  invocation).  `Except ApiError` models a raised client exception.
* Every builder returns its Python result (`Option`, `None` ↦ `none`)
  paired with the ordered trace of remote calls it issued.
* `time.sleep` and all logging calls have no observable effect and are
  omitted; `round` is modelled as decimal round-half-to-even.
-/

namespace BinanceBot

/-- Exchange-supplied precision metadata for one symbol
(`get_symbol_info`; the Python `.get(..., 8)` defaults are folded into
the fields, which the exchange always supplies). -/
structure SymbolInfo where
  quantityPrecision : Nat
  pricePrecision : Nat
deriving DecidableEq, Repr

/-- Opaque order response returned by the remote service. -/
structure OrderResponse where
  orderId : Nat
deriving DecidableEq, Repr

/-- The keyword arguments passed to `client.futures_create_order`; a field
holding `none` models an argument that is not passed at all. -/
structure OrderRequest where
  symbol : String
  side : String
  otype : String
  quantity : ℚ
  price : Option ℚ := none
  stopPrice : Option ℚ := none
  timeInForce : Option String := none
  reduceOnly : Option Bool := none
deriving DecidableEq, Repr

/-- The three exception categories caught by every builder:
`BinanceAPIException` (with its numeric code), `BinanceOrderException`,
and any other runtime exception. -/
inductive ApiError where
  | api (code : Int)
  | order
  | runtime
deriving DecidableEq, Repr

/-- One remote call issued through the vendor client. -/
inductive RemoteCall where
  | fetchInfo (symbol : String)
  | fetchTicker (symbol : String)
  | createOrder (req : OrderRequest)
  | cancelOrder (symbol : String) (orderId : Nat)
deriving DecidableEq, Repr

/-- Deterministic oracle for the remote exchange: each kind of call is a
function of how many calls of that kind the current builder invocation
has already made. -/
structure Env where
  symbolInfo : Nat → String → Option SymbolInfo
  ticker : Nat → String → Except ApiError ℚ
  createOrder : Nat → OrderRequest → Except ApiError OrderResponse
  cancelOrder : Nat → String → Nat → Except ApiError Unit

/-- The order-creation requests appearing in a remote-call trace. -/
def orderReqs : List RemoteCall → List OrderRequest
  | [] => []
  | .createOrder req :: rest => req :: orderReqs rest
  | _ :: rest => orderReqs rest

/-- Floor of a rational, written so that the kernel can evaluate it. -/
def ratFloor (x : ℚ) : ℤ := x.num / x.den

/-- Python `round` to an integer: round half to even. -/
def roundHalfEven (x : ℚ) : ℤ :=
  if x - ratFloor x < 1 / 2 then ratFloor x
  else if 1 / 2 < x - ratFloor x then ratFloor x + 1
  else if ratFloor x % 2 = 0 then ratFloor x else ratFloor x + 1

/-- Python `round(x, p)` for a non-negative number of decimal places `p`. -/
def roundTo (x : ℚ) (p : Nat) : ℚ :=
  (roundHalfEven (x * 10 ^ p) : ℚ) / 10 ^ p

/-- `pat` is a leading segment of `hay`. -/
def leadsList : List Char → List Char → Bool
  | [], _ => true
  | _ :: _, [] => false
  | p :: ps, c :: cs => p == c && leadsList ps cs

/-- `pat` occurs as a contiguous segment of the second list
(Python `pat in s` on strings). -/
def hasSegment (pat : List Char) : List Char → Bool
  | [] => pat.isEmpty
  | c :: rest => leadsList pat (c :: rest) || hasSegment pat rest

/-- Python `str.upper` (ASCII reading). -/
def pyUpper (s : String) : String := ⟨s.toList.map Char.toUpper⟩

/-- Python `str.isupper`: every cased character is uppercase and at least
one cased character exists (ASCII reading). -/
def pyIsUpper (s : String) : Bool :=
  s.toList.all (fun c => !c.isLower) && s.toList.any (fun c => c.isUpper)

/-- `BasicBot.validate_symbol`: non-empty, uppercase, contains "USDT". -/
def validate_symbol (s : String) : Bool :=
  !s.isEmpty && (pyIsUpper s && hasSegment "USDT".toList s.toList)

/-- `BasicBot.validate_quantity`: `quantity > 0`. -/
def validate_quantity (q : ℚ) : Bool := 0 < q

/-- `BasicBot.validate_price`: `price > 0`. -/
def validate_price (p : ℚ) : Bool := 0 < p

/-- `MarketOrders.place_market_order`: validate symbol, side, quantity;
format the quantity (one metadata fetch); submit one MARKET order; any
caught client exception yields `none`. -/
def place_market_order (env : Env) (symbol side : String) (quantity : ℚ)
    (reduce_only : Bool) : Option OrderResponse × List RemoteCall :=
  if !validate_symbol symbol then (none, [])
  else if !(["BUY", "SELL"].contains (pyUpper side)) then (none, [])
  else if !validate_quantity quantity then (none, [])
  else
    match env.symbolInfo 0 symbol with
    | none => (none, [.fetchInfo symbol])
    | some info =>
      let fq := roundTo quantity info.quantityPrecision
      let req : OrderRequest :=
        { symbol := symbol, side := pyUpper side, otype := "MARKET",
          quantity := fq, reduceOnly := some reduce_only }
      match env.createOrder 0 req with
      | .ok o => (some o, [.fetchInfo symbol, .createOrder req])
      | .error _ => (none, [.fetchInfo symbol, .createOrder req])

/-- `LimitOrders.place_limit_order`: validate symbol, side, quantity,
price, time-in-force; format quantity and price (two metadata fetches,
both issued before the combined failure check); submit one LIMIT order;
any caught client exception yields `none`. -/
def place_limit_order (env : Env) (symbol side : String) (quantity price : ℚ)
    (time_in_force : String) (reduce_only : Bool) :
    Option OrderResponse × List RemoteCall :=
  if !validate_symbol symbol then (none, [])
  else if !(["BUY", "SELL"].contains (pyUpper side)) then (none, [])
  else if !validate_quantity quantity then (none, [])
  else if !validate_price price then (none, [])
  else if !(["GTC", "IOC", "FOK"].contains time_in_force) then (none, [])
  else
    match env.symbolInfo 0 symbol, env.symbolInfo 1 symbol with
    | some infoQ, some infoP =>
      let fq := roundTo quantity infoQ.quantityPrecision
      let fp := roundTo price infoP.pricePrecision
      let req : OrderRequest :=
        { symbol := symbol, side := pyUpper side, otype := "LIMIT",
          quantity := fq, price := some fp,
          timeInForce := some time_in_force, reduceOnly := some reduce_only }
      match env.createOrder 0 req with
      | .ok o => (some o, [.fetchInfo symbol, .fetchInfo symbol, .createOrder req])
      | .error _ => (none, [.fetchInfo symbol, .fetchInfo symbol, .createOrder req])
    | _, _ => (none, [.fetchInfo symbol, .fetchInfo symbol])

/-- `StopLimitOrders.place_stop_limit_order`: validate symbol, side,
quantity, both prices; format quantity, stop price and limit price (three
metadata fetches); submit one STOP order with hard-coded GTC; any caught
client exception yields `none`. -/
def place_stop_limit_order (env : Env) (symbol side : String)
    (quantity stop_price limit_price : ℚ) (reduce_only : Bool) :
    Option OrderResponse × List RemoteCall :=
  if !validate_symbol symbol then (none, [])
  else if !(["BUY", "SELL"].contains (pyUpper side)) then (none, [])
  else if !validate_quantity quantity then (none, [])
  else if !validate_price stop_price || !validate_price limit_price then (none, [])
  else
    match env.symbolInfo 0 symbol, env.symbolInfo 1 symbol, env.symbolInfo 2 symbol with
    | some infoQ, some infoS, some infoL =>
      let fq := roundTo quantity infoQ.quantityPrecision
      let fsp := roundTo stop_price infoS.pricePrecision
      let flp := roundTo limit_price infoL.pricePrecision
      let req : OrderRequest :=
        { symbol := symbol, side := pyUpper side, otype := "STOP",
          quantity := fq, stopPrice := some fsp, price := some flp,
          timeInForce := some "GTC", reduceOnly := some reduce_only }
      match env.createOrder 0 req with
      | .ok o =>
        (some o, [.fetchInfo symbol, .fetchInfo symbol, .fetchInfo symbol, .createOrder req])
      | .error _ =>
        (none, [.fetchInfo symbol, .fetchInfo symbol, .fetchInfo symbol, .createOrder req])
    | _, _, _ => (none, [.fetchInfo symbol, .fetchInfo symbol, .fetchInfo symbol])

/-- The two order responses returned by a successful pseudo-OCO call
(Python dict keys `stop_loss` and `take_profit`). -/
structure OcoResult where
  stop_loss : OrderResponse
  take_profit : OrderResponse
deriving DecidableEq, Repr

/-- `OCOOrders.place_oco_order`: validate; format quantity, stop price and
take-profit price (three metadata fetches; the reference `price` argument
is validated but never formatted); place an opposite-side STOP_MARKET
stop-loss then an opposite-side TAKE_PROFIT_MARKET take-profit.  If the
first placement throws, the handler cancels nothing (the dict is empty)
and returns `none`; if the second throws, the handler attempts to cancel
the stop-loss (best effort, result ignored) and returns `none`. -/
def place_oco_order (env : Env) (symbol side : String)
    (quantity price stop_price limit_price : ℚ) (reduce_only : Bool) :
    Option OcoResult × List RemoteCall :=
  if !validate_symbol symbol then (none, [])
  else if !(["BUY", "SELL"].contains (pyUpper side)) then (none, [])
  else if !validate_quantity quantity then (none, [])
  else if !(validate_price price && validate_price stop_price &&
      validate_price limit_price) then (none, [])
  else
    match env.symbolInfo 0 symbol, env.symbolInfo 1 symbol, env.symbolInfo 2 symbol with
    | some infoQ, some infoS, some infoL =>
      let fq := roundTo quantity infoQ.quantityPrecision
      let fsp := roundTo stop_price infoS.pricePrecision
      let flp := roundTo limit_price infoL.pricePrecision
      let opp := if pyUpper side == "BUY" then "SELL" else "BUY"
      let reqStop : OrderRequest :=
        { symbol := symbol, side := opp, otype := "STOP_MARKET",
          quantity := fq, stopPrice := some fsp,
          reduceOnly := some reduce_only }
      match env.createOrder 0 reqStop with
      | .error _ =>
        (none, [.fetchInfo symbol, .fetchInfo symbol, .fetchInfo symbol,
          .createOrder reqStop])
      | .ok o1 =>
        let reqTp : OrderRequest :=
          { symbol := symbol, side := opp, otype := "TAKE_PROFIT_MARKET",
            quantity := fq, stopPrice := some flp,
            reduceOnly := some reduce_only }
        match env.createOrder 1 reqTp with
        | .ok o2 =>
          (some { stop_loss := o1, take_profit := o2 },
            [.fetchInfo symbol, .fetchInfo symbol, .fetchInfo symbol,
              .createOrder reqStop, .createOrder reqTp])
        | .error _ =>
          (none, [.fetchInfo symbol, .fetchInfo symbol, .fetchInfo symbol,
            .createOrder reqStop, .createOrder reqTp,
            .cancelOrder symbol o1.orderId])
    | _, _, _ => (none, [.fetchInfo symbol, .fetchInfo symbol, .fetchInfo symbol])

/-- The MARKET-mode order request of one TWAP interval. -/
def twapMarketReq (symbol sideU : String) (fq : ℚ) : OrderRequest :=
  { symbol := symbol, side := sideU, otype := "MARKET", quantity := fq }

/-- The LIMIT-mode order request of one TWAP interval (immediate-or-cancel
at the formatted adjusted price). -/
def twapLimitReq (symbol sideU : String) (fq fp : ℚ) : OrderRequest :=
  { symbol := symbol, side := sideU, otype := "LIMIT", quantity := fq,
    price := some fp, timeInForce := some "IOC" }

/-- The price a LIMIT-mode TWAP interval quotes: slightly below market for
a buy, slightly above for a sell (`0.999` and `1.001` read as exact
rationals). -/
def twapLimitPrice (sideU : String) (current : ℚ) : ℚ :=
  if sideU == "BUY" then current * (999 / 1000) else current * (1001 / 1000)

/-- The `for i in range(num_intervals)` loop of
`TWAPOrders.place_twap_order`.  `fuel` is the number of intervals left,
`i` the current interval index (which indexes the ticker fetch of a LIMIT
interval; its metadata fetch is number `i + 1`, after the one made by the
initial quantity formatting), `c` the number of order-creation attempts
made so far.  On a caught client exception the Python handler returns
`orders if orders else None`. -/
def twapLoop (env : Env) (symbol sideU order_type : String) (fq : ℚ) :
    Nat → Nat → Nat → List OrderResponse → List RemoteCall →
    Option (List OrderResponse) × List RemoteCall
  | 0, _, _, acc, tr => (some acc, tr)
  | fuel + 1, i, c, acc, tr =>
    if order_type == "MARKET" then
      let req := twapMarketReq symbol sideU fq
      match env.createOrder c req with
      | .ok o => twapLoop env symbol sideU order_type fq fuel (i + 1) (c + 1)
          (acc ++ [o]) (tr ++ [.createOrder req])
      | .error _ =>
        ((if acc.isEmpty then none else some acc), tr ++ [.createOrder req])
    else
      match env.ticker i symbol with
      | .error _ =>
        ((if acc.isEmpty then none else some acc), tr ++ [.fetchTicker symbol])
      | .ok current =>
        match env.symbolInfo (i + 1) symbol with
        | none => twapLoop env symbol sideU order_type fq fuel (i + 1) c acc
            (tr ++ [.fetchTicker symbol, .fetchInfo symbol])
        | some info =>
          let fp := roundTo (twapLimitPrice sideU current) info.pricePrecision
          let req := twapLimitReq symbol sideU fq fp
          match env.createOrder c req with
          | .ok o => twapLoop env symbol sideU order_type fq fuel (i + 1) (c + 1)
              (acc ++ [o]) (tr ++ [.fetchTicker symbol, .fetchInfo symbol, .createOrder req])
          | .error _ =>
            ((if acc.isEmpty then none else some acc),
              tr ++ [.fetchTicker symbol, .fetchInfo symbol, .createOrder req])

/-- `TWAPOrders.place_twap_order`: validate; split the total quantity into
`num_intervals` equal clips, format the clip size once (one metadata
fetch), then run the interval loop.  (`interval_seconds` only feeds
`time.sleep` and is not modelled.) -/
def place_twap_order (env : Env) (symbol side : String) (total_quantity : ℚ)
    (duration_minutes num_intervals : ℤ) (order_type : String) :
    Option (List OrderResponse) × List RemoteCall :=
  if !validate_symbol symbol then (none, [])
  else if !(["BUY", "SELL"].contains (pyUpper side)) then (none, [])
  else if !validate_quantity total_quantity then (none, [])
  else if duration_minutes ≤ 0 ∨ num_intervals ≤ 0 then (none, [])
  else if !(["MARKET", "LIMIT"].contains order_type) then (none, [])
  else
    let interval_quantity := total_quantity / (num_intervals : ℚ)
    match env.symbolInfo 0 symbol with
    | none => (none, [.fetchInfo symbol])
    | some info =>
      let fq := roundTo interval_quantity info.quantityPrecision
      twapLoop env symbol (pyUpper side) order_type fq
        num_intervals.toNat 0 0 [] [.fetchInfo symbol]

/-- The evenly spaced price ladder of `GridOrders.place_grid_orders`:
`price_step = (upper - lower) / levels` and
`[lower + i * price_step for i in range(levels + 1)]`. -/
def gridPrices (lower upper : ℚ) (levels : ℕ) : List ℚ :=
  (List.range (levels + 1)).map
    (fun i : ℕ => lower + (i : ℚ) * ((upper - lower) / (levels : ℚ)))

/-- The submission test of a grid level: the BUY loop takes points
strictly below the snapshot price, the SELL loop points strictly above
it. -/
def gridCond (isBuy : Bool) (current p : ℚ) : Bool :=
  if isBuy then p < current else current < p

/-- The order request one grid level submits. -/
def gridOrderReq (symbol order_type : String) (isBuy : Bool) (fq fp : ℚ) :
    OrderRequest :=
  if order_type == "LIMIT" then
    { symbol := symbol, side := if isBuy then "BUY" else "SELL",
      otype := "LIMIT", quantity := fq, price := some fp,
      timeInForce := some "GTC" }
  else
    { symbol := symbol, side := if isBuy then "BUY" else "SELL",
      otype := "MARKET", quantity := fq }

/-- Outcome of one of the two placement loops of
`GridOrders.place_grid_orders`: either the loop finished (carrying the
updated order-creation and metadata-fetch counters) or a client exception
was caught mid-loop. -/
inductive SideOut where
  | done (orders : List OrderResponse) (tr : List RemoteCall) (c iIdx : Nat)
  | fail (orders : List OrderResponse) (tr : List RemoteCall)
deriving Repr

/-- One placement loop of `GridOrders.place_grid_orders` (`isBuy = true`
for the `price < current_price` BUY loop, `false` for the
`price > current_price` SELL loop).  A level whose price-formatting
metadata fetch fails is skipped (`continue`); `c` counts order-creation
attempts, `iIdx` metadata fetches of the whole invocation. -/
def gridSide (env : Env) (symbol order_type : String) (fq current : ℚ)
    (isBuy : Bool) :
    List ℚ → Nat → Nat → List OrderResponse → List RemoteCall → SideOut
  | [], c, iIdx, acc, tr => .done acc tr c iIdx
  | p :: rest, c, iIdx, acc, tr =>
    if gridCond isBuy current p then
      match env.symbolInfo iIdx symbol with
      | none => gridSide env symbol order_type fq current isBuy rest c (iIdx + 1)
          acc (tr ++ [.fetchInfo symbol])
      | some info =>
        let req := gridOrderReq symbol order_type isBuy fq
          (roundTo p info.pricePrecision)
        match env.createOrder c req with
        | .ok o => gridSide env symbol order_type fq current isBuy rest (c + 1)
            (iIdx + 1) (acc ++ [o]) (tr ++ [.fetchInfo symbol, .createOrder req])
        | .error _ => .fail acc (tr ++ [.fetchInfo symbol, .createOrder req])
    else
      gridSide env symbol order_type fq current isBuy rest c iIdx acc tr

/-- The buy/sell order lists of a grid placement result (the success dict
additionally carries the two list lengths; the partial-failure dict does
not — neither count affects any claim). -/
structure GridResult where
  buy_orders : List OrderResponse
  sell_orders : List OrderResponse
deriving DecidableEq, Repr

/-- `GridOrders.place_grid_orders`: validate; build the ladder; format the
per-level quantity (metadata fetch 0); snapshot the current price once;
run the BUY loop then the SELL loop over the whole ladder.  A caught
client exception yields the orders placed so far, or `none` when no order
was placed. -/
def place_grid_orders (env : Env) (symbol : String)
    (lower_price upper_price : ℚ) (grid_levels : ℤ)
    (quantity_per_grid : ℚ) (order_type : String) :
    Option GridResult × List RemoteCall :=
  if !validate_symbol symbol then (none, [])
  else if !validate_price lower_price || !validate_price upper_price then (none, [])
  else if upper_price ≤ lower_price then (none, [])
  else if grid_levels ≤ 0 then (none, [])
  else if !validate_quantity quantity_per_grid then (none, [])
  else if !(["LIMIT", "MARKET"].contains order_type) then (none, [])
  else
    let grid_prices := gridPrices lower_price upper_price grid_levels.toNat
    match env.symbolInfo 0 symbol with
    | none => (none, [.fetchInfo symbol])
    | some info =>
      let fq := roundTo quantity_per_grid info.quantityPrecision
      match env.ticker 0 symbol with
      | .error _ => (none, [.fetchInfo symbol, .fetchTicker symbol])
      | .ok current =>
        match gridSide env symbol order_type fq current true grid_prices 0 1 [] [] with
        | .fail buys tr =>
          ((if buys.isEmpty then none else some { buy_orders := buys, sell_orders := [] }),
            [.fetchInfo symbol, .fetchTicker symbol] ++ tr)
        | .done buys tr c iIdx =>
          match gridSide env symbol order_type fq current false grid_prices c iIdx [] [] with
          | .fail sells tr2 =>
            ((if buys.isEmpty && sells.isEmpty then none
              else some { buy_orders := buys, sell_orders := sells }),
              [.fetchInfo symbol, .fetchTicker symbol] ++ tr ++ tr2)
          | .done sells tr2 _ _ =>
            (some { buy_orders := buys, sell_orders := sells },
              [.fetchInfo symbol, .fetchTicker symbol] ++ tr ++ tr2)

/-- Remote calls available to `BasicBot.__init__`: the unauthenticated
server-time probe of `_sync_server_time` and the `futures_account`
connection check (its payload reduced to the wallet balance, the only
field read). -/
structure InitEnv where
  serverTime : Except ApiError ℤ
  account : Except ApiError ℚ

/-- `BasicBot.__init__` after client construction: `_sync_server_time`
catches every failure internally (warnings only), then the
`futures_account` connection check re-raises any exception after logging
it (the `-1021` / `-1022` code tests only choose log messages). -/
def initBot (env : InitEnv) : Except ApiError Unit :=
  match env.account with
  | .ok _ => .ok ()
  | .error e => .error e

/-! ## Helper lemmas and example environments -/

theorem validate_quantity_eq_false {q : ℚ} (h : q ≤ 0) :
    validate_quantity q = false := by
  simp only [validate_quantity, decide_eq_false_iff_not, not_lt]
  exact h

theorem validate_quantity_eq_true {q : ℚ} (h : 0 < q) :
    validate_quantity q = true := by
  simpa only [validate_quantity, decide_eq_true_eq]

theorem validate_price_eq_false {p : ℚ} (h : p ≤ 0) :
    validate_price p = false := by
  simp only [validate_price, decide_eq_false_iff_not, not_lt]
  exact h

theorem validate_price_eq_true {p : ℚ} (h : 0 < p) :
    validate_price p = true := by
  simpa only [validate_price, decide_eq_true_eq]

theorem ratFloor_eq (x : ℚ) : ratFloor x = ⌊x⌋ := by
  rw [ratFloor, Rat.floor_def]

/-- Rounding half to even moves a value by at most one half. -/
theorem abs_roundHalfEven_sub (y : ℚ) :
    |((roundHalfEven y : ℤ) : ℚ) - y| ≤ 1 / 2 := by
  have hfl : ((ratFloor y : ℤ) : ℚ) ≤ y := by
    rw [ratFloor_eq]; exact Int.floor_le y
  have hfu : y < ((ratFloor y : ℤ) : ℚ) + 1 := by
    rw [ratFloor_eq]; exact Int.lt_floor_add_one y
  unfold roundHalfEven
  split_ifs with h1 h2 h3
  · rw [abs_le]
    constructor <;> linarith
  · rw [abs_le]
    push_cast
    constructor <;> linarith
  · have h : y - ratFloor y = 1 / 2 := le_antisymm (not_lt.mp h2) (not_lt.mp h1)
    rw [abs_le]
    constructor <;> linarith
  · have h : y - ratFloor y = 1 / 2 := le_antisymm (not_lt.mp h2) (not_lt.mp h1)
    rw [abs_le]
    push_cast
    constructor <;> linarith

/-- `roundTo` moves a value by at most half of the last kept decimal. -/
theorem abs_roundTo_sub (x : ℚ) (p : ℕ) :
    |roundTo x p - x| ≤ 1 / (2 * 10 ^ p) := by
  have h10 : (0 : ℚ) < 10 ^ p := by positivity
  have key : roundTo x p - x =
      (((roundHalfEven (x * 10 ^ p) : ℤ) : ℚ) - x * 10 ^ p) / 10 ^ p := by
    rw [roundTo]
    field_simp
    ring
  rw [key, abs_div, abs_of_pos h10]
  calc |((roundHalfEven (x * 10 ^ p) : ℤ) : ℚ) - x * 10 ^ p| / 10 ^ p
      ≤ (1 / 2) / 10 ^ p :=
        (div_le_div_iff_of_pos_right h10).mpr (abs_roundHalfEven_sub _)
    _ = 1 / (2 * 10 ^ p) := by ring

/-- A benign exchange environment for concrete checks: fixed precision
metadata, constant ticker price 100, every order accepted with its
attempt index as order id. -/
def envA : Env :=
  { symbolInfo := fun _ _ => some { quantityPrecision := 3, pricePrecision := 2 },
    ticker := fun _ _ => .ok 100,
    createOrder := fun c _ => .ok { orderId := c },
    cancelOrder := fun _ _ _ => .ok () }

/-- Like `envA` but every order-creation attempt is rejected. -/
def envReject : Env :=
  { envA with createOrder := fun _ _ => .error (.api (-2019)) }

/-- Like `envA` but the order-creation attempt numbered `k` throws. -/
def envFailAt (k : Nat) : Env :=
  { envA with
    createOrder := fun c _ =>
      if c = k then .error .runtime else .ok { orderId := c } }

/-- Like `envA` but with ticker price 2 (the midpoint of the witness
grid), so a grid has points on both sides of the snapshot price. -/
def envP2 : Env :=
  { envA with ticker := fun _ _ => .ok 2 }

/-- Like `envA` but the metadata fetch numbered `k + 1` finds no symbol
(the fetch made by the price formatting of TWAP interval `k`). -/
def envSkipAt (k : Nat) : Env :=
  { envA with
    symbolInfo := fun j _ =>
      if j = k + 1 then none
      else some { quantityPrecision := 3, pricePrecision := 2 } }

theorem orderReqs_append (a b : List RemoteCall) :
    orderReqs (a ++ b) = orderReqs a ++ orderReqs b := by
  induction a with
  | nil => rfl
  | cons x rest ih =>
    cases x <;> simp [orderReqs, ih]

theorem range_map_shift {α : Type} (f : ℕ → α) (c n : ℕ) :
    (List.range (n + 1)).map (fun j => f (c + j)) =
      f c :: (List.range n).map (fun j => f (c + 1 + j)) := by
  rw [List.range_succ_eq_map, List.map_cons, List.map_map]
  refine congrArg₂ _ (by simp) (List.map_congr_left ?_)
  intro a _
  simp [Function.comp, Nat.succ_eq_add_one]
  congr 1
  omega

theorem filter_range_succ_shift (sk : ℕ → Bool) (i n : ℕ) :
    ((List.range (n + 1)).filter (fun j => !sk (i + j))).length =
      (if sk i then 0 else 1) +
        ((List.range n).filter (fun j => !sk (i + 1 + j))).length := by
  rw [List.range_succ_eq_map, List.filter_cons]
  have hcong : List.filter ((fun j => !sk (i + j)) ∘ Nat.succ) (List.range n) =
      List.filter (fun j => !sk (i + 1 + j)) (List.range n) := by
    refine List.filter_congr ?_
    intro a _
    simp [Function.comp, Nat.succ_eq_add_one]
    congr 1
    omega
  cases hsk : sk i
  · simp [hsk, List.filter_map, List.length_map, hcong]
    omega
  · simp [hsk, List.filter_map, List.length_map, hcong]

theorem length_filter_lt_of_mem {α : Type} (p : α → Bool) (l : List α) (a : α)
    (ha : a ∈ l) (hpa : p a = false) : (l.filter p).length < l.length := by
  induction l with
  | nil => cases ha
  | cons b t ih =>
    rcases List.mem_cons.mp ha with rfl | hmem
    · rw [List.filter_cons, hpa]
      simp only [Bool.false_eq_true, if_false, List.length_cons]
      exact Nat.lt_succ_of_le (List.length_filter_le p t)
    · rw [List.filter_cons]
      cases hpb : p b
      · simp only [Bool.false_eq_true, if_false, List.length_cons]
        exact Nat.lt_succ_of_le (List.length_filter_le p t)
      · simp only [if_true, List.length_cons]
        exact Nat.succ_lt_succ (ih hmem)

/-- If every order creation succeeds (and, in LIMIT mode, every ticker
and metadata fetch succeeds), the TWAP loop places one order per
remaining interval, each carrying the fixed formatted clip quantity. -/
theorem twapLoop_all_ok (env : Env) (s sideU ot : String) (fq : ℚ)
    (f : Nat → OrderResponse)
    (hok : ∀ c req, env.createOrder c req = .ok (f c))
    (hmode : ot = "MARKET" ∨ ot = "LIMIT")
    (htick : ∀ i, ∃ p, env.ticker i s = .ok p)
    (hinfo : ∀ j, ∃ inf, env.symbolInfo j s = some inf) :
    ∀ fuel i c acc tr, ∃ δ,
      twapLoop env s sideU ot fq fuel i c acc tr =
        (some (acc ++ (List.range fuel).map (fun j => f (c + j))), tr ++ δ) ∧
      (orderReqs δ).length = fuel ∧
      ∀ req ∈ orderReqs δ, req.quantity = fq := by
  intro fuel
  induction fuel with
  | zero =>
    intro i c acc tr
    exact ⟨[], by simp [twapLoop], by simp [orderReqs], by simp [orderReqs]⟩
  | succ fuel ih =>
    intro i c acc tr
    rcases hmode with hmk | hlm
    · subst hmk
      obtain ⟨δ', hδ', hlen', hq'⟩ := ih (i + 1) (c + 1) (acc ++ [f c])
        (tr ++ [.createOrder (twapMarketReq s sideU fq)])
      refine ⟨.createOrder (twapMarketReq s sideU fq) :: δ', ?_, ?_, ?_⟩
      · simp only [twapLoop, beq_self_eq_true, if_true, hok]
        rw [hδ', range_map_shift]
        simp
      · simp [orderReqs, hlen']
      · intro req hreq
        rcases List.mem_cons.mp hreq with rfl | h
        · rfl
        · exact hq' req h
    · subst hlm
      have hne : (("LIMIT" : String) == "MARKET") = false := by decide
      obtain ⟨p, hp⟩ := htick i
      obtain ⟨inf, hinf⟩ := hinfo (i + 1)
      obtain ⟨δ', hδ', hlen', hq'⟩ := ih (i + 1) (c + 1) (acc ++ [f c])
        (tr ++ [.fetchTicker s, .fetchInfo s, .createOrder (twapLimitReq s sideU fq
          (roundTo (twapLimitPrice sideU p) inf.pricePrecision))])
      refine ⟨.fetchTicker s :: .fetchInfo s :: .createOrder (twapLimitReq s sideU fq
          (roundTo (twapLimitPrice sideU p) inf.pricePrecision)) :: δ', ?_, ?_, ?_⟩
      · simp only [twapLoop, hne, Bool.false_eq_true, if_false, hp, hinf, hok]
        rw [hδ', range_map_shift]
        simp
      · simp [orderReqs, hlen']
      · intro r hr
        rcases List.mem_cons.mp hr with rfl | h
        · rfl
        · exact hq' r h

/-- If the first `k` order creations succeed and attempt `k` throws, the
TWAP loop stops at attempt `k` and returns the orders accumulated so far
(`none` when there are none). -/
theorem twapLoop_fail_at (env : Env) (s sideU ot : String) (fq : ℚ)
    (f : Nat → OrderResponse) (k : Nat) (e : ApiError)
    (hok : ∀ j req, j < k → env.createOrder j req = .ok (f j))
    (herr : ∀ req, env.createOrder k req = .error e)
    (hmode : ot = "MARKET" ∨ ot = "LIMIT")
    (htick : ∀ i, ∃ p, env.ticker i s = .ok p)
    (hinfo : ∀ j, ∃ inf, env.symbolInfo j s = some inf) :
    ∀ fuel i c acc tr, c ≤ k → k < c + fuel → ∃ δ,
      twapLoop env s sideU ot fq fuel i c acc tr =
        ((if (acc ++ (List.range (k - c)).map (fun j => f (c + j))).isEmpty
            then none
            else some (acc ++ (List.range (k - c)).map (fun j => f (c + j)))),
          tr ++ δ) := by
  intro fuel
  induction fuel with
  | zero =>
    intro i c acc tr hck hkc
    omega
  | succ fuel ih =>
    intro i c acc tr hck hkc
    rcases Nat.lt_or_ge c k with hlt | hge
    · -- attempt c succeeds, recurse
      have hshift : acc ++ (List.range (k - c)).map (fun j => f (c + j)) =
          (acc ++ [f c]) ++ (List.range (k - (c + 1))).map (fun j => f (c + 1 + j)) := by
        have : k - c = (k - (c + 1)) + 1 := by omega
        rw [this, range_map_shift]
        simp
      rcases hmode with hmk | hlm
      · subst hmk
        obtain ⟨δ', hδ'⟩ := ih (i + 1) (c + 1) (acc ++ [f c])
          (tr ++ [.createOrder (twapMarketReq s sideU fq)]) (by omega) (by omega)
        refine ⟨.createOrder (twapMarketReq s sideU fq) :: δ', ?_⟩
        simp only [twapLoop, beq_self_eq_true, if_true, hok _ _ hlt]
        rw [hδ', hshift]
        simp
      · subst hlm
        have hne : (("LIMIT" : String) == "MARKET") = false := by decide
        obtain ⟨p, hp⟩ := htick i
        obtain ⟨inf, hinf⟩ := hinfo (i + 1)
        obtain ⟨δ', hδ'⟩ := ih (i + 1) (c + 1) (acc ++ [f c])
          (tr ++ [.fetchTicker s, .fetchInfo s, .createOrder (twapLimitReq s sideU fq
            (roundTo (twapLimitPrice sideU p) inf.pricePrecision))]) (by omega) (by omega)
        refine ⟨.fetchTicker s :: .fetchInfo s :: .createOrder (twapLimitReq s sideU fq
            (roundTo (twapLimitPrice sideU p) inf.pricePrecision)) :: δ', ?_⟩
        simp only [twapLoop, hne, Bool.false_eq_true, if_false, hp, hinf, hok _ _ hlt]
        rw [hδ', hshift]
        simp
    · -- attempt c is attempt k: it throws
      have hck' : c = k := by omega
      subst hck'
      have hempty : acc ++ (List.range (c - c)).map (fun j => f (c + j)) = acc := by
        simp
      rcases hmode with hmk | hlm
      · subst hmk
        refine ⟨[.createOrder (twapMarketReq s sideU fq)], ?_⟩
        simp only [twapLoop, beq_self_eq_true, if_true, herr]
        rw [hempty]
      · subst hlm
        have hne : (("LIMIT" : String) == "MARKET") = false := by decide
        obtain ⟨p, hp⟩ := htick i
        obtain ⟨inf, hinf⟩ := hinfo (i + 1)
        refine ⟨[.fetchTicker s, .fetchInfo s, .createOrder (twapLimitReq s sideU fq
            (roundTo (twapLimitPrice sideU p) inf.pricePrecision))], ?_⟩
        simp only [twapLoop, hne, Bool.false_eq_true, if_false, hp, hinf, herr]
        rw [hempty]

/-- In LIMIT mode with all tickers and order creations succeeding,
intervals whose metadata fetch fails (`sk i = true`) are skipped and the
others each place one order; the loop always ends in the success branch. -/
theorem twapLoop_limit_skips (env : Env) (s sideU : String) (fq : ℚ)
    (f : Nat → OrderResponse) (sk : Nat → Bool)
    (hok : ∀ c req, env.createOrder c req = .ok (f c))
    (htick : ∀ i, ∃ p, env.ticker i s = .ok p)
    (hinfo : ∀ i, if sk i then env.symbolInfo (i + 1) s = none
            else ∃ inf, env.symbolInfo (i + 1) s = some inf) :
    ∀ fuel i c acc tr, ∃ new δ,
      twapLoop env s sideU "LIMIT" fq fuel i c acc tr =
        (some (acc ++ new), tr ++ δ) ∧
      new.length = ((List.range fuel).filter (fun j => !sk (i + j))).length ∧
      (orderReqs δ).length = new.length := by
  intro fuel
  induction fuel with
  | zero =>
    intro i c acc tr
    exact ⟨[], [], by simp [twapLoop], by simp, by simp [orderReqs]⟩
  | succ fuel ih =>
    intro i c acc tr
    have hne : (("LIMIT" : String) == "MARKET") = false := by decide
    obtain ⟨p, hp⟩ := htick i
    have hcount := filter_range_succ_shift sk i fuel
    cases hsk : sk i with
    | true =>
      have hnone : env.symbolInfo (i + 1) s = none := by
        have h := hinfo i
        rw [hsk] at h
        simpa using h
      obtain ⟨new', δ', hδ', hlen', hreq'⟩ := ih (i + 1) c acc
        (tr ++ [.fetchTicker s, .fetchInfo s])
      refine ⟨new', .fetchTicker s :: .fetchInfo s :: δ', ?_, ?_, ?_⟩
      · simp only [twapLoop, hne, Bool.false_eq_true, if_false, hp, hnone]
        rw [hδ']
        simp
      · rw [hlen', hcount, hsk]
        simp
      · simpa [orderReqs] using hreq'
    | false =>
      obtain ⟨inf, hinf⟩ : ∃ inf, env.symbolInfo (i + 1) s = some inf := by
        have h := hinfo i
        rw [hsk] at h
        simpa using h
      obtain ⟨new', δ', hδ', hlen', hreq'⟩ := ih (i + 1) (c + 1) (acc ++ [f c])
        (tr ++ [.fetchTicker s, .fetchInfo s, .createOrder (twapLimitReq s sideU fq
          (roundTo (twapLimitPrice sideU p) inf.pricePrecision))])
      refine ⟨f c :: new', .fetchTicker s :: .fetchInfo s ::
        .createOrder (twapLimitReq s sideU fq
          (roundTo (twapLimitPrice sideU p) inf.pricePrecision)) :: δ', ?_, ?_, ?_⟩
      · simp only [twapLoop, hne, Bool.false_eq_true, if_false, hp, hinf, hok]
        rw [hδ']
        simp
      · rw [List.length_cons, hlen', hcount, hsk]
        simp [Nat.add_comm]
      · simp [orderReqs, hreq']

/-- Running the TWAP wrapper on valid inputs reduces to the interval loop
on the formatted clip quantity. -/
theorem place_twap_order_run (env : Env) (s sd : String) (Q : ℚ) (d n : ℤ)
    (ot : String) (info : SymbolInfo)
    (hsym : validate_symbol s = true)
    (hside : (["BUY", "SELL"].contains (pyUpper sd)) = true)
    (hQ : 0 < Q) (hd : 0 < d) (hn : 0 < n)
    (hot : (["MARKET", "LIMIT"].contains ot) = true)
    (hinfo : env.symbolInfo 0 s = some info) :
    place_twap_order env s sd Q d n ot =
      twapLoop env s (pyUpper sd) ot
        (roundTo (Q / (n : ℚ)) info.quantityPrecision) n.toNat 0 0
        [] [.fetchInfo s] := by
  unfold place_twap_order
  rw [hsym, hside, validate_quantity_eq_true hQ, hot]
  have hg : ¬(d ≤ 0 ∨ n ≤ 0) := by omega
  simp only [Bool.not_true, Bool.false_eq_true, if_false, hg, hinfo]

theorem gridOrderReq_side (s ot : String) (isBuy : Bool) (fq fp : ℚ) :
    (gridOrderReq s ot isBuy fq fp).side = if isBuy then "BUY" else "SELL" := by
  unfold gridOrderReq
  split <;> rfl

/-- If every metadata fetch and every order creation succeeds, one grid
placement loop submits exactly one order per ladder point satisfying its
side's comparison, in ladder order, and finishes in the success branch
with the counters advanced by that many calls. -/
theorem gridSide_all_ok (env : Env) (s ot : String) (fq P : ℚ) (isBuy : Bool)
    (info : SymbolInfo) (f : Nat → OrderResponse)
    (hinfo : ∀ j, env.symbolInfo j s = some info)
    (hok : ∀ c req, env.createOrder c req = .ok (f c)) :
    ∀ (prices : List ℚ) (c iIdx : Nat) (acc : List OrderResponse)
      (tr : List RemoteCall), ∃ δ,
      gridSide env s ot fq P isBuy prices c iIdx acc tr =
        .done (acc ++ (List.range (prices.filter (gridCond isBuy P)).length).map
            (fun j => f (c + j)))
          (tr ++ δ) (c + (prices.filter (gridCond isBuy P)).length)
          (iIdx + (prices.filter (gridCond isBuy P)).length) ∧
      orderReqs δ = (prices.filter (gridCond isBuy P)).map
        (fun p => gridOrderReq s ot isBuy fq (roundTo p info.pricePrecision)) := by
  intro prices
  induction prices with
  | nil =>
    intro c iIdx acc tr
    exact ⟨[], by simp [gridSide], by simp [orderReqs]⟩
  | cons p rest ih =>
    intro c iIdx acc tr
    cases hc : gridCond isBuy P p with
    | false =>
      obtain ⟨δ, hδ, hreq⟩ := ih c iIdx acc tr
      refine ⟨δ, ?_, ?_⟩
      · simp only [gridSide, hc, Bool.false_eq_true, if_false]
        rw [hδ, List.filter_cons, hc]
        simp
      · rw [List.filter_cons, hc]
        simpa using hreq
    | true =>
      obtain ⟨δ, hδ, hreq⟩ := ih (c + 1) (iIdx + 1) (acc ++ [f c])
        (tr ++ [.fetchInfo s, .createOrder (gridOrderReq s ot isBuy fq
          (roundTo p info.pricePrecision))])
      have hflen : ((p :: rest).filter (gridCond isBuy P)).length =
          (rest.filter (gridCond isBuy P)).length + 1 := by
        rw [List.filter_cons, hc]
        simp
      refine ⟨.fetchInfo s :: .createOrder (gridOrderReq s ot isBuy fq
        (roundTo p info.pricePrecision)) :: δ, ?_, ?_⟩
      · simp only [gridSide, hc, if_true, hinfo, hok]
        rw [hδ, hflen]
        congr 1
        · rw [range_map_shift]
          simp
        · simp
        · omega
        · omega
      · rw [List.filter_cons, hc]
        simp [orderReqs, hreq]

/-! ## Claims -/

/-- C1: for bounds `0 < L < U` and `N ≥ 1` levels, the grid price ladder
computed by `place_grid_orders` is `point[i] = L + i * (U - L) / N` for
`i = 0..N`: it has exactly `N + 1` points, is strictly increasing, and
satisfies `point[0] = L` and `point[N] = U`. -/
theorem grid_ladder_points (L U : ℚ) (N : ℕ) (_hL : 0 < L) (hLU : L < U)
    (hN : 1 ≤ N) :
    (gridPrices L U N).length = N + 1 ∧
    (∀ i : ℕ, i ≤ N → (gridPrices L U N)[i]? = some (L + i * ((U - L) / N))) ∧
    (gridPrices L U N).Pairwise (· < ·) ∧
    (gridPrices L U N)[0]? = some L ∧
    (gridPrices L U N)[N]? = some U := by
  have hN0 : (N : ℚ) ≠ 0 := by
    have : 0 < N := by omega
    exact_mod_cast this.ne'
  have hidx : ∀ i : ℕ, i ≤ N →
      (gridPrices L U N)[i]? = some (L + i * ((U - L) / N)) := by
    intro i hi
    have : i < N + 1 := by omega
    simp [gridPrices, List.getElem?_map, List.getElem?_range, this]
  refine ⟨by simp [gridPrices], hidx, ?_, ?_, ?_⟩
  · have hstep : 0 < (U - L) / (N : ℚ) := by
      apply div_pos (sub_pos.mpr hLU)
      have : 0 < N := by omega
      exact_mod_cast this
    rw [gridPrices, List.pairwise_map]
    refine (List.pairwise_lt_range _).imp ?_
    intro a b hab
    have : (a : ℚ) < b := by exact_mod_cast hab
    exact add_lt_add_left (mul_lt_mul_of_pos_right this hstep) L
  · have h0 := hidx 0 (by omega)
    simpa using h0
  · have hNi := hidx N le_rfl
    have : L + (N : ℚ) * ((U - L) / N) = U := by field_simp
    rwa [this] at hNi

/-- C2: a valid TWAP request splits the total quantity `Q` into
`n` equal clips of `round(Q / n, precision)` each, so the clip sum differs
from `Q` by at most `n` half-ulps; absent any failure, exactly `n`
order-creation calls are attempted, one per clip. -/
theorem twap_equal_split (env : Env) (s sd : String) (Q : ℚ) (d : ℤ) (n : ℕ)
    (ot : String) (info : SymbolInfo) (f : Nat → OrderResponse)
    (hsym : validate_symbol s = true)
    (hside : (["BUY", "SELL"].contains (pyUpper sd)) = true)
    (hQ : 0 < Q) (hd : 0 < d) (hn : 1 ≤ n)
    (hmode : ot = "MARKET" ∨ ot = "LIMIT")
    (hinfo : ∀ j, env.symbolInfo j s = some info)
    (htick : ∀ i, ∃ p, env.ticker i s = .ok p)
    (hok : ∀ c req, env.createOrder c req = .ok (f c)) :
    ∃ res tr,
      place_twap_order env s sd Q d (n : ℤ) ot = (some res, tr) ∧
      res.length = n ∧
      (orderReqs tr).length = n ∧
      (∀ req ∈ orderReqs tr,
        req.quantity = roundTo (Q / (n : ℚ)) info.quantityPrecision) ∧
      |(n : ℚ) * roundTo (Q / (n : ℚ)) info.quantityPrecision - Q| ≤
        (n : ℚ) / (2 * 10 ^ info.quantityPrecision) := by
  have hot : (["MARKET", "LIMIT"].contains ot) = true := by
    rcases hmode with h | h <;> simp [h]
  rw [place_twap_order_run env s sd Q d (n : ℤ) ot info hsym hside hQ hd
    (by exact_mod_cast (by omega : 0 < n)) hot (hinfo 0),
    Int.toNat_natCast, Int.cast_natCast]
  obtain ⟨δ, hδ, hlen, hq⟩ := twapLoop_all_ok env s (pyUpper sd) ot
    (roundTo (Q / (n : ℚ)) info.quantityPrecision) f hok hmode htick
    (fun j => ⟨info, hinfo j⟩) n 0 0 [] [.fetchInfo s]
  refine ⟨(List.range n).map (fun j => f (0 + j)), [.fetchInfo s] ++ δ,
    by simpa using hδ, by simp, ?_, ?_, ?_⟩
  · rw [orderReqs_append]
    simpa [orderReqs] using hlen
  · intro req hreq
    rw [orderReqs_append] at hreq
    simp only [orderReqs, List.nil_append] at hreq
    exact hq req hreq
  · have hn0 : (0 : ℚ) < (n : ℚ) := by exact_mod_cast (by omega : 0 < n)
    have hrw : (n : ℚ) * roundTo (Q / (n : ℚ)) info.quantityPrecision - Q =
        (n : ℚ) * (roundTo (Q / (n : ℚ)) info.quantityPrecision - Q / (n : ℚ)) := by
      field_simp
      ring
    rw [hrw, abs_mul, abs_of_pos hn0]
    calc (n : ℚ) * |roundTo (Q / (n : ℚ)) info.quantityPrecision - Q / (n : ℚ)|
        ≤ (n : ℚ) * (1 / (2 * 10 ^ info.quantityPrecision)) :=
          mul_le_mul_of_nonneg_left
            (abs_roundTo_sub (Q / (n : ℚ)) info.quantityPrecision) hn0.le
      _ = (n : ℚ) / (2 * 10 ^ info.quantityPrecision) := by ring

/-- Witness for C2: `Q = 5` split into 4 MARKET clips in the benign
environment. -/
theorem twap_equal_split_check :
    ∃ res tr,
      place_twap_order envA "BTCUSDT" "BUY" 5 5 ((4 : ℕ) : ℤ) "MARKET" =
        (some res, tr) ∧
      res.length = 4 ∧ (orderReqs tr).length = 4 := by
  obtain ⟨res, tr, h1, h2, h3, -, -⟩ :=
    twap_equal_split envA "BTCUSDT" "BUY" 5 5 4 "MARKET"
      { quantityPrecision := 3, pricePrecision := 2 } (fun c => { orderId := c })
      (by decide) (by decide) (by norm_num) (by norm_num) (by norm_num)
      (Or.inl rfl) (fun _ => rfl) (fun _ => ⟨100, rfl⟩) (fun _ _ => rfl)
  exact ⟨res, tr, h1, h2, h3⟩

/-- C5: a TWAP run of `n` intervals whose first `k ≥ 1` submissions
succeed and whose submission `k + 1` throws returns exactly those `k`
order responses (not `none`). -/
theorem twap_midfail_returns_partial (env : Env) (s sd : String) (Q : ℚ)
    (d : ℤ) (n k : ℕ) (ot : String) (info : SymbolInfo)
    (f : Nat → OrderResponse) (e : ApiError)
    (hsym : validate_symbol s = true)
    (hside : (["BUY", "SELL"].contains (pyUpper sd)) = true)
    (hQ : 0 < Q) (hd : 0 < d)
    (hmode : ot = "MARKET" ∨ ot = "LIMIT")
    (hinfo : ∀ j, env.symbolInfo j s = some info)
    (htick : ∀ i, ∃ p, env.ticker i s = .ok p)
    (hok : ∀ j req, j < k → env.createOrder j req = .ok (f j))
    (herr : ∀ req, env.createOrder k req = .error e)
    (hk : 1 ≤ k) (hkn : k < n) :
    ∃ tr, place_twap_order env s sd Q d (n : ℤ) ot =
      (some ((List.range k).map f), tr) := by
  have hot : (["MARKET", "LIMIT"].contains ot) = true := by
    rcases hmode with h | h <;> simp [h]
  rw [place_twap_order_run env s sd Q d (n : ℤ) ot info hsym hside hQ hd
    (by exact_mod_cast (by omega : 0 < n)) hot (hinfo 0),
    Int.toNat_natCast]
  obtain ⟨δ, hδ⟩ := twapLoop_fail_at env s (pyUpper sd) ot
    (roundTo (Q / ((n : ℤ) : ℚ)) info.quantityPrecision) f k e hok herr hmode
    htick (fun j => ⟨info, hinfo j⟩) n 0 0 [] [.fetchInfo s]
    (by omega) (by omega)
  refine ⟨[.fetchInfo s] ++ δ, ?_⟩
  rw [hδ]
  have hmap : (List.range (k - 0)).map (fun j => f (0 + j)) =
      (List.range k).map f := by
    simp
  rw [hmap]
  have hne : (([] : List OrderResponse) ++ (List.range k).map f).isEmpty = false := by
    simp [List.isEmpty_iff]
    omega
  rw [hne]
  simp

/-- Witness for C5: with 4 intervals and the third submission throwing,
the first two orders are returned. -/
theorem twap_midfail_returns_partial_check :
    ∃ tr, place_twap_order (envFailAt 2) "BTCUSDT" "BUY" 5 5 ((4 : ℕ) : ℤ)
      "MARKET" =
      (some ((List.range 2).map (fun c => ({ orderId := c } : OrderResponse))),
        tr) :=
  twap_midfail_returns_partial (envFailAt 2) "BTCUSDT" "BUY" 5 5 4 2 "MARKET"
    { quantityPrecision := 3, pricePrecision := 2 }
    (fun c => { orderId := c }) .runtime
    (by decide) (by decide) (by norm_num) (by norm_num) (Or.inl rfl)
    (fun _ => rfl) (fun _ => ⟨100, rfl⟩)
    (fun j _ hj => by
      simp only [envFailAt, envA]
      rw [if_neg (by omega)])
    (fun _ => by simp [envFailAt, envA])
    (by norm_num) (by norm_num)

/-- C8: a TWAP run whose very first submission throws returns `none` —
the same value a failed input validation returns, so the caller cannot
tell total placement failure from a validation failure by the return
value alone. -/
theorem twap_first_failure_none (env : Env) (s sd : String) (Q : ℚ)
    (d : ℤ) (n : ℕ) (ot : String) (info : SymbolInfo) (e : ApiError)
    (hsym : validate_symbol s = true)
    (hside : (["BUY", "SELL"].contains (pyUpper sd)) = true)
    (hQ : 0 < Q) (hd : 0 < d) (hn : 1 ≤ n)
    (hmode : ot = "MARKET" ∨ ot = "LIMIT")
    (hinfo : ∀ j, env.symbolInfo j s = some info)
    (htick : ∀ i, ∃ p, env.ticker i s = .ok p)
    (herr : ∀ req, env.createOrder 0 req = .error e) :
    (∃ tr, place_twap_order env s sd Q d (n : ℤ) ot = (none, tr)) ∧
    (∀ Q' : ℚ, Q' ≤ 0 →
      place_twap_order env s sd Q' d (n : ℤ) ot = (none, [])) := by
  constructor
  · have hot : (["MARKET", "LIMIT"].contains ot) = true := by
      rcases hmode with h | h <;> simp [h]
    rw [place_twap_order_run env s sd Q d (n : ℤ) ot info hsym hside hQ hd
      (by exact_mod_cast (by omega : 0 < n)) hot (hinfo 0),
      Int.toNat_natCast]
    obtain ⟨δ, hδ⟩ := twapLoop_fail_at env s (pyUpper sd) ot
      (roundTo (Q / ((n : ℤ) : ℚ)) info.quantityPrecision)
      (fun _ => { orderId := 0 }) 0 e
      (fun j _ hj => absurd hj (Nat.not_lt_zero j)) herr hmode
      htick (fun j => ⟨info, hinfo j⟩) n 0 0 [] [.fetchInfo s]
      (by omega) (by omega)
    refine ⟨[.fetchInfo s] ++ δ, ?_⟩
    rw [hδ]
    simp
  · intro Q' hQ'
    unfold place_twap_order
    rw [validate_quantity_eq_false hQ']
    simp

/-- Witness for C8: first submission throws with 4 intervals: `none`;
a non-positive quantity also yields `none`. -/
theorem twap_first_failure_none_check :
    (∃ tr, place_twap_order (envFailAt 0) "BTCUSDT" "BUY" 5 5 ((4 : ℕ) : ℤ)
      "MARKET" = (none, tr)) ∧
    place_twap_order (envFailAt 0) "BTCUSDT" "BUY" (-1) 5 ((4 : ℕ) : ℤ)
      "MARKET" = (none, []) := by
  have h := twap_first_failure_none (envFailAt 0) "BTCUSDT" "BUY" 5 5 4
    "MARKET" { quantityPrecision := 3, pricePrecision := 2 } .runtime
    (by decide) (by decide) (by norm_num) (by norm_num) (by norm_num)
    (Or.inl rfl) (fun _ => rfl) (fun _ => ⟨100, rfl⟩)
    (fun _ => by simp [envFailAt, envA])
  exact ⟨h.1, h.2 (-1) (by norm_num)⟩

/-- C10: a LIMIT-mode TWAP run in which the metadata fetch of at least
one interval fails skips those intervals and continues; it still returns
a success result whose list has fewer than `n` orders, one per
non-skipped interval, with one submission per returned order. -/
theorem twap_limit_skip_continues (env : Env) (s sd : String) (Q : ℚ)
    (d : ℤ) (n : ℕ) (info : SymbolInfo) (f : Nat → OrderResponse)
    (sk : Nat → Bool)
    (hsym : validate_symbol s = true)
    (hside : (["BUY", "SELL"].contains (pyUpper sd)) = true)
    (hQ : 0 < Q) (hd : 0 < d) (hn : 1 ≤ n)
    (hinfo0 : env.symbolInfo 0 s = some info)
    (hinfo : ∀ i, if sk i then env.symbolInfo (i + 1) s = none
            else ∃ inf, env.symbolInfo (i + 1) s = some inf)
    (htick : ∀ i, ∃ p, env.ticker i s = .ok p)
    (hok : ∀ c req, env.createOrder c req = .ok (f c))
    (j : ℕ) (hj : j < n) (hskj : sk j = true) :
    ∃ res tr,
      place_twap_order env s sd Q d (n : ℤ) "LIMIT" = (some res, tr) ∧
      res.length = ((List.range n).filter (fun i => !sk i)).length ∧
      res.length < n ∧
      (orderReqs tr).length = res.length := by
  rw [place_twap_order_run env s sd Q d (n : ℤ) "LIMIT" info hsym hside hQ hd
    (by exact_mod_cast (by omega : 0 < n)) (by decide) hinfo0,
    Int.toNat_natCast]
  obtain ⟨new, δ, hδ, hlen, hreq⟩ := twapLoop_limit_skips env s (pyUpper sd)
    (roundTo (Q / ((n : ℤ) : ℚ)) info.quantityPrecision) f sk hok htick hinfo
    n 0 0 [] [.fetchInfo s]
  have hfc : (List.range n).filter (fun i => !sk (0 + i)) =
      (List.range n).filter (fun i => !sk i) := by
    refine List.filter_congr ?_
    intro a _
    simp
  refine ⟨new, [.fetchInfo s] ++ δ, by simpa using hδ, ?_, ?_, ?_⟩
  · rw [hlen, hfc]
  · rw [hlen, hfc]
    have := length_filter_lt_of_mem (fun i => !sk i) (List.range n) j
      (List.mem_range.mpr hj) (by simp [hskj])
    simpa using this
  · rw [orderReqs_append]
    simpa [orderReqs] using hreq

/-- Witness for C10: 4 LIMIT intervals with interval 1's metadata fetch
failing: 3 orders are returned from 3 submissions. -/
theorem twap_limit_skip_continues_check :
    ∃ res tr,
      place_twap_order (envSkipAt 1) "BTCUSDT" "BUY" 5 5 ((4 : ℕ) : ℤ)
        "LIMIT" = (some res, tr) ∧
      res.length = 3 ∧ res.length < 4 ∧ (orderReqs tr).length = res.length := by
  have hinfo : ∀ i : ℕ,
      if (i == 1 : Bool) then (envSkipAt 1).symbolInfo (i + 1) "BTCUSDT" = none
      else ∃ inf, (envSkipAt 1).symbolInfo (i + 1) "BTCUSDT" = some inf := by
    intro i
    by_cases h : i = 1
    · subst h
      simp [envSkipAt, envA]
    · have h2 : ¬ i + 1 = 1 + 1 := by omega
      simp only [envSkipAt, envA, h, h2]
      simp [h, h2]
  obtain ⟨res, tr, h1, h2, h3, h4⟩ :=
    twap_limit_skip_continues (envSkipAt 1) "BTCUSDT" "BUY" 5 5 4
      { quantityPrecision := 3, pricePrecision := 2 }
      (fun c => { orderId := c }) (fun i => i == 1)
      (by decide) (by decide) (by norm_num) (by norm_num) (by norm_num)
      (by simp [envSkipAt, envA]) hinfo (fun _ => ⟨100, rfl⟩) (fun _ _ => rfl)
      1 (by norm_num) (by decide)
  refine ⟨res, tr, h1, ?_, h3, h4⟩
  rw [h2]
  decide

/-- C3: with the market price `P` snapshotted once at the start, a grid
placement submits BUY orders exactly for the ladder points strictly below
`P` (in ladder order) and SELL orders exactly for the points strictly
above `P`; both submission tests reject a point equal to `P`, so such a
point is submitted on neither side. -/
theorem grid_buy_below_sell_above (env : Env) (s : String) (L U : ℚ) (g : ℕ)
    (q : ℚ) (ot : String) (info : SymbolInfo) (f : Nat → OrderResponse)
    (P : ℚ)
    (hsym : validate_symbol s = true)
    (hL : 0 < L) (hLU : L < U) (hg : 1 ≤ g) (hq : 0 < q)
    (hot : (["LIMIT", "MARKET"].contains ot) = true)
    (hinfo : ∀ j, env.symbolInfo j s = some info)
    (htick : env.ticker 0 s = .ok P)
    (hok : ∀ c req, env.createOrder c req = .ok (f c)) :
    ∃ res tr,
      place_grid_orders env s L U (g : ℤ) q ot = (some res, tr) ∧
      orderReqs tr =
        ((gridPrices L U g).filter (gridCond true P)).map
          (fun p => gridOrderReq s ot true (roundTo q info.quantityPrecision)
            (roundTo p info.pricePrecision)) ++
        ((gridPrices L U g).filter (gridCond false P)).map
          (fun p => gridOrderReq s ot false (roundTo q info.quantityPrecision)
            (roundTo p info.pricePrecision)) ∧
      (∀ req ∈ orderReqs tr, req.side = "BUY" →
        ∃ p ∈ gridPrices L U g, p < P ∧
          req = gridOrderReq s ot true (roundTo q info.quantityPrecision)
            (roundTo p info.pricePrecision)) ∧
      (∀ req ∈ orderReqs tr, req.side = "SELL" →
        ∃ p ∈ gridPrices L U g, P < p ∧
          req = gridOrderReq s ot false (roundTo q info.quantityPrecision)
            (roundTo p info.pricePrecision)) ∧
      (gridCond true P P = false ∧ gridCond false P P = false) ∧
      res.buy_orders.length =
        ((gridPrices L U g).filter (gridCond true P)).length ∧
      res.sell_orders.length =
        ((gridPrices L U g).filter (gridCond false P)).length := by
  have hU : 0 < U := hL.trans hLU
  have h1 : ¬ U ≤ L := not_le.mpr hLU
  have h2 : ¬ (g : ℤ) ≤ 0 := by omega
  obtain ⟨δb, hb, hbr⟩ := gridSide_all_ok env s ot
    (roundTo q info.quantityPrecision) P true info f hinfo hok
    (gridPrices L U g) 0 1 [] []
  obtain ⟨δs, hs, hsr⟩ := gridSide_all_ok env s ot
    (roundTo q info.quantityPrecision) P false info f hinfo hok
    (gridPrices L U g)
    (0 + ((gridPrices L U g).filter (gridCond true P)).length)
    (1 + ((gridPrices L U g).filter (gridCond true P)).length) [] []
  refine
    ⟨{ buy_orders :=
         (List.range ((gridPrices L U g).filter (gridCond true P)).length).map
           (fun j => f (0 + j)),
       sell_orders :=
         (List.range ((gridPrices L U g).filter (gridCond false P)).length).map
           (fun j => f (0 + ((gridPrices L U g).filter (gridCond true P)).length + j)) },
     [.fetchInfo s, .fetchTicker s] ++ δb ++ δs, ?_, ?_, ?_, ?_, ?_, ?_, ?_⟩
  case _ =>
    unfold place_grid_orders
    rw [hsym, validate_price_eq_true hL, validate_price_eq_true hU,
      validate_quantity_eq_true hq, hot]
    simp only [Bool.not_true, Bool.or_self, Bool.false_eq_true, if_false,
      h1, h2, hinfo, htick, Int.toNat_natCast]
    simp only [hb]
    simp only [hs]
    simp
  case _ =>
    rw [orderReqs_append, orderReqs_append, hbr, hsr]
    rfl
  case _ =>
    intro req hreq hside
    rw [orderReqs_append, orderReqs_append, hbr, hsr] at hreq
    have hreq' : req ∈
        ((gridPrices L U g).filter (gridCond true P)).map
          (fun p => gridOrderReq s ot true (roundTo q info.quantityPrecision)
            (roundTo p info.pricePrecision)) ++
        ((gridPrices L U g).filter (gridCond false P)).map
          (fun p => gridOrderReq s ot false (roundTo q info.quantityPrecision)
            (roundTo p info.pricePrecision)) := by
      simpa [orderReqs] using hreq
    rcases List.mem_append.mp hreq' with hmem | hmem
    · obtain ⟨p, hpf, rfl⟩ := List.mem_map.mp hmem
      obtain ⟨hpmem, hplt⟩ := List.mem_filter.mp hpf
      refine ⟨p, hpmem, ?_, rfl⟩
      simpa [gridCond] using hplt
    · obtain ⟨p, hpf, rfl⟩ := List.mem_map.mp hmem
      rw [gridOrderReq_side] at hside
      simp at hside
  case _ =>
    intro req hreq hside
    rw [orderReqs_append, orderReqs_append, hbr, hsr] at hreq
    have hreq' : req ∈
        ((gridPrices L U g).filter (gridCond true P)).map
          (fun p => gridOrderReq s ot true (roundTo q info.quantityPrecision)
            (roundTo p info.pricePrecision)) ++
        ((gridPrices L U g).filter (gridCond false P)).map
          (fun p => gridOrderReq s ot false (roundTo q info.quantityPrecision)
            (roundTo p info.pricePrecision)) := by
      simpa [orderReqs] using hreq
    rcases List.mem_append.mp hreq' with hmem | hmem
    · obtain ⟨p, hpf, rfl⟩ := List.mem_map.mp hmem
      rw [gridOrderReq_side] at hside
      simp at hside
    · obtain ⟨p, hpf, rfl⟩ := List.mem_map.mp hmem
      obtain ⟨hpmem, hplt⟩ := List.mem_filter.mp hpf
      refine ⟨p, hpmem, ?_, rfl⟩
      simpa [gridCond] using hplt
  case _ =>
    constructor <;> simp [gridCond]
  case _ =>
    simp
  case _ =>
    simp

/-- Witness for C3: grid `[1, 2, 3]` against snapshot price 2: the BUY
submissions are exactly the points below 2 and the SELL submissions
exactly the points above 2. -/
theorem grid_buy_below_sell_above_check :
    ∃ res tr,
      place_grid_orders envP2 "BTCUSDT" 1 3 ((2 : ℕ) : ℤ) 5 "LIMIT" =
        (some res, tr) ∧
      orderReqs tr =
        ((gridPrices 1 3 2).filter (gridCond true 2)).map
          (fun p => gridOrderReq "BTCUSDT" "LIMIT" true
            (roundTo 5 ({ quantityPrecision := 3, pricePrecision := 2 } :
              SymbolInfo).quantityPrecision)
            (roundTo p ({ quantityPrecision := 3, pricePrecision := 2 } :
              SymbolInfo).pricePrecision)) ++
        ((gridPrices 1 3 2).filter (gridCond false 2)).map
          (fun p => gridOrderReq "BTCUSDT" "LIMIT" false
            (roundTo 5 ({ quantityPrecision := 3, pricePrecision := 2 } :
              SymbolInfo).quantityPrecision)
            (roundTo p ({ quantityPrecision := 3, pricePrecision := 2 } :
              SymbolInfo).pricePrecision)) ∧
      (gridCond true 2 2 = false ∧ gridCond false 2 2 = false) := by
  obtain ⟨res, tr, h1, h2, -, -, h5, -, -⟩ :=
    grid_buy_below_sell_above envP2 "BTCUSDT" 1 3 2 5 "LIMIT"
      { quantityPrecision := 3, pricePrecision := 2 }
      (fun c => { orderId := c }) 2
      (by decide) (by norm_num) (by norm_num) (by norm_num) (by norm_num)
      (by decide) (fun _ => rfl) rfl (fun _ _ => rfl)
  exact ⟨res, tr, h1, h2, h5⟩

/-- C4: for every builder, any input whose quantity or any price argument
is `≤ 0` yields the failure result `none` with an empty remote-call
trace: no metadata fetch, no ticker fetch, no order creation. -/
theorem nonpositive_inputs_rejected (env : Env) :
    (∀ s sd (q : ℚ) ro, q ≤ 0 →
      place_market_order env s sd q ro = (none, [])) ∧
    (∀ s sd (q p : ℚ) tif ro, q ≤ 0 ∨ p ≤ 0 →
      place_limit_order env s sd q p tif ro = (none, [])) ∧
    (∀ s sd (q sp lp : ℚ) ro, q ≤ 0 ∨ sp ≤ 0 ∨ lp ≤ 0 →
      place_stop_limit_order env s sd q sp lp ro = (none, [])) ∧
    (∀ s sd (q p sp lp : ℚ) ro, q ≤ 0 ∨ p ≤ 0 ∨ sp ≤ 0 ∨ lp ≤ 0 →
      place_oco_order env s sd q p sp lp ro = (none, [])) ∧
    (∀ s sd (q : ℚ) d n ot, q ≤ 0 →
      place_twap_order env s sd q d n ot = (none, [])) ∧
    (∀ s (L U : ℚ) g (q : ℚ) ot, L ≤ 0 ∨ U ≤ 0 ∨ q ≤ 0 →
      place_grid_orders env s L U g q ot = (none, [])) := by
  refine ⟨?_, ?_, ?_, ?_, ?_, ?_⟩
  · intro s sd q ro hq
    unfold place_market_order
    rw [validate_quantity_eq_false hq]
    simp
  · intro s sd q p tif ro h
    unfold place_limit_order
    rcases h with h | h
    · rw [validate_quantity_eq_false h]; simp
    · rw [validate_price_eq_false h]; simp
  · intro s sd q sp lp ro h
    unfold place_stop_limit_order
    rcases h with h | h | h
    · rw [validate_quantity_eq_false h]; simp
    · rw [validate_price_eq_false h]; simp
    · rw [validate_price_eq_false h]; simp
  · intro s sd q p sp lp ro h
    unfold place_oco_order
    rcases h with h | h | h | h
    · rw [validate_quantity_eq_false h]; simp
    · rw [validate_price_eq_false h]; simp
    · rw [validate_price_eq_false h]; simp
    · rw [validate_price_eq_false h]; simp
  · intro s sd q d n ot hq
    unfold place_twap_order
    rw [validate_quantity_eq_false hq]
    simp
  · intro s L U g q ot h
    unfold place_grid_orders
    rcases h with h | h | h
    · rw [validate_price_eq_false h]; simp
    · rw [validate_price_eq_false h]; simp
    · rw [validate_quantity_eq_false h]; simp

/-- Witness for C4: a negative quantity market order and a grid request
with a negative lower bound both fail with no remote call. -/
theorem nonpositive_inputs_rejected_check :
    place_market_order envA "BTCUSDT" "BUY" (-1) false = (none, []) ∧
    place_grid_orders envA "BTCUSDT" (-1) 3 2 5 "LIMIT" = (none, []) :=
  ⟨(nonpositive_inputs_rejected envA).1 _ _ _ _ (by norm_num),
   (nonpositive_inputs_rejected envA).2.2.2.2.2 _ _ _ _ _ _
     (Or.inl (by norm_num))⟩

/-- C6: an unrecognized side value (after upper-casing, not `BUY`/`SELL`)
makes the market, limit and stop-limit builders fail with no remote call,
and an unrecognized time-in-force makes the limit builder (the only one
taking a time-in-force argument) fail with no remote call. -/
theorem bad_enum_rejected (env : Env) :
    (∀ s sd (q : ℚ) ro, (["BUY", "SELL"].contains (pyUpper sd)) = false →
      place_market_order env s sd q ro = (none, [])) ∧
    (∀ s sd (q p : ℚ) tif ro,
      (["BUY", "SELL"].contains (pyUpper sd)) = false ∨
        (["GTC", "IOC", "FOK"].contains tif) = false →
      place_limit_order env s sd q p tif ro = (none, [])) ∧
    (∀ s sd (q sp lp : ℚ) ro, (["BUY", "SELL"].contains (pyUpper sd)) = false →
      place_stop_limit_order env s sd q sp lp ro = (none, [])) := by
  refine ⟨?_, ?_, ?_⟩
  · intro s sd q ro hsd
    unfold place_market_order
    rw [hsd]
    simp
  · intro s sd q p tif ro h
    unfold place_limit_order
    rcases h with h | h
    · rw [h]; simp
    · rw [h]; simp
  · intro s sd q sp lp ro hsd
    unfold place_stop_limit_order
    rw [hsd]
    simp

/-- Witness for C6: side `HOLD` and time-in-force `DAY` are both
rejected without a remote call. -/
theorem bad_enum_rejected_check :
    place_market_order envA "BTCUSDT" "HOLD" 5 false = (none, []) ∧
    place_limit_order envA "BTCUSDT" "BUY" 5 100 "DAY" false = (none, []) :=
  ⟨(bad_enum_rejected envA).1 _ _ _ _ (by decide),
   (bad_enum_rejected envA).2.1 _ _ _ _ _ _ (Or.inr (by decide))⟩

/-- C7: every failure category is converted into a `none` (or partial)
result instead of propagating: a local validation failure yields `none`
with no remote call; a remote rejection of any category (`e` ranges over
API rejection, order rejection and unexpected runtime failure) at the
first order creation yields `none` in every builder; a ticker failure
yields `none` in grid.  Only `BasicBot.__init__` re-raises: its
connection check propagates the error, and succeeds otherwise. -/
theorem failures_never_propagate :
    (∀ ienv e, ienv.account = .error e → initBot ienv = .error e) ∧
    (∀ ienv b, ienv.account = .ok b → initBot ienv = .ok ()) ∧
    (∀ (env : Env) s sd (q : ℚ) ro, validate_symbol s = false →
      place_market_order env s sd q ro = (none, [])) ∧
    (∀ (env : Env) s sd (q : ℚ) ro info e, validate_symbol s = true →
      (["BUY", "SELL"].contains (pyUpper sd)) = true → 0 < q →
      env.symbolInfo 0 s = some info →
      (∀ req, env.createOrder 0 req = .error e) →
      ∃ tr, place_market_order env s sd q ro = (none, tr)) ∧
    (∀ (env : Env) s sd (q p : ℚ) tif ro info e, validate_symbol s = true →
      (["BUY", "SELL"].contains (pyUpper sd)) = true → 0 < q → 0 < p →
      (["GTC", "IOC", "FOK"].contains tif) = true →
      (∀ j, env.symbolInfo j s = some info) →
      (∀ req, env.createOrder 0 req = .error e) →
      ∃ tr, place_limit_order env s sd q p tif ro = (none, tr)) ∧
    (∀ (env : Env) s sd (q sp lp : ℚ) ro info e, validate_symbol s = true →
      (["BUY", "SELL"].contains (pyUpper sd)) = true → 0 < q → 0 < sp → 0 < lp →
      (∀ j, env.symbolInfo j s = some info) →
      (∀ req, env.createOrder 0 req = .error e) →
      ∃ tr, place_stop_limit_order env s sd q sp lp ro = (none, tr)) ∧
    (∀ (env : Env) s sd (q p sp lp : ℚ) ro info e, validate_symbol s = true →
      (["BUY", "SELL"].contains (pyUpper sd)) = true →
      0 < q → 0 < p → 0 < sp → 0 < lp →
      (∀ j, env.symbolInfo j s = some info) →
      (∀ req, env.createOrder 0 req = .error e) →
      ∃ tr, place_oco_order env s sd q p sp lp ro = (none, tr)) ∧
    (∀ (env : Env) s sd (q : ℚ) (d n : ℤ) info e, validate_symbol s = true →
      (["BUY", "SELL"].contains (pyUpper sd)) = true → 0 < q → 0 < d → 0 < n →
      env.symbolInfo 0 s = some info →
      (∀ c req, env.createOrder c req = .error e) →
      ∃ tr, place_twap_order env s sd q d n "MARKET" = (none, tr)) ∧
    (∀ (env : Env) s (L U : ℚ) (g : ℤ) (q : ℚ) info e, validate_symbol s = true →
      0 < L → L < U → 0 < g → 0 < q →
      env.symbolInfo 0 s = some info →
      env.ticker 0 s = .error e →
      place_grid_orders env s L U g q "LIMIT" =
        (none, [.fetchInfo s, .fetchTicker s])) := by
  refine ⟨?_, ?_, ?_, ?_, ?_, ?_, ?_, ?_, ?_⟩
  · intro ienv e h
    simp [initBot, h]
  · intro ienv b h
    simp [initBot, h]
  · intro env s sd q ro hsym
    unfold place_market_order
    rw [hsym]
    simp
  · intro env s sd q ro info e hsym hside hq hinfo herr
    unfold place_market_order
    rw [hsym, hside, validate_quantity_eq_true hq]
    simp [hinfo, herr]
  · intro env s sd q p tif ro info e hsym hside hq hp htif hinfo herr
    unfold place_limit_order
    rw [hsym, hside, validate_quantity_eq_true hq, validate_price_eq_true hp, htif]
    simp [hinfo, herr]
  · intro env s sd q sp lp ro info e hsym hside hq hsp hlp hinfo herr
    unfold place_stop_limit_order
    rw [hsym, hside, validate_quantity_eq_true hq, validate_price_eq_true hsp,
      validate_price_eq_true hlp]
    simp [hinfo, herr]
  · intro env s sd q p sp lp ro info e hsym hside hq hp hsp hlp hinfo herr
    unfold place_oco_order
    rw [hsym, hside, validate_quantity_eq_true hq, validate_price_eq_true hp,
      validate_price_eq_true hsp, validate_price_eq_true hlp]
    simp [hinfo, herr]
  · intro env s sd q d n info e hsym hside hq hd hn hinfo herr
    unfold place_twap_order
    rw [hsym, hside, validate_quantity_eq_true hq]
    have hg : ¬(d ≤ 0 ∨ n ≤ 0) := by omega
    obtain ⟨m, hm⟩ : ∃ m, n.toNat = m + 1 := ⟨n.toNat - 1, by omega⟩
    simp only [hg, hinfo, hm]
    simp [twapLoop, herr]
  · intro env s L U g q info e hsym hL hLU hg hq hinfo htick
    unfold place_grid_orders
    rw [validate_price_eq_true hL, validate_price_eq_true (hL.trans hLU),
      validate_quantity_eq_true hq, hsym]
    have h1 : ¬ U ≤ L := not_le.mpr hLU
    have h2 : ¬ g ≤ 0 := by omega
    simp [h1, h2, hinfo, htick]

/-- Witness for C7: the connection check propagates a clock-skew error;
a rejected market order yields `none`. -/
theorem failures_never_propagate_check :
    initBot { serverTime := .ok 0, account := .error (.api (-1021)) } =
      .error (.api (-1021)) ∧
    ∃ tr, place_market_order envReject "BTCUSDT" "BUY" 5 false = (none, tr) :=
  ⟨failures_never_propagate.1 _ _ rfl,
   failures_never_propagate.2.2.2.1 envReject "BTCUSDT" "BUY" 5 false
     { quantityPrecision := 3, pricePrecision := 2 } (.api (-2019))
     (by decide) (by decide) (by norm_num) rfl (fun _ => rfl)⟩

/-- C9: a successful pseudo-OCO call submits exactly two orders, both on
the side opposite to the requested side and with the same formatted
quantity: a STOP_MARKET stop-loss triggered at the formatted stop price
and a TAKE_PROFIT_MARKET take-profit whose trigger `stopPrice` is the
formatted take-profit limit price — no LIMIT-type order is placed. -/
theorem oco_success_shape (env : Env) (s sd : String) (q p sp lp : ℚ)
    (ro : Bool) (info : SymbolInfo) (o1 o2 : OrderResponse)
    (hsym : validate_symbol s = true)
    (hside : (["BUY", "SELL"].contains (pyUpper sd)) = true)
    (hq : 0 < q) (hp : 0 < p) (hsp : 0 < sp) (hlp : 0 < lp)
    (hinfo : ∀ j, env.symbolInfo j s = some info)
    (h0 : ∀ req, env.createOrder 0 req = .ok o1)
    (h1 : ∀ req, env.createOrder 1 req = .ok o2) :
    ∃ r1 r2 : OrderRequest,
      place_oco_order env s sd q p sp lp ro =
        (some { stop_loss := o1, take_profit := o2 },
          [.fetchInfo s, .fetchInfo s, .fetchInfo s,
            .createOrder r1, .createOrder r2]) ∧
      (pyUpper sd = "BUY" → r1.side = "SELL" ∧ r2.side = "SELL") ∧
      (pyUpper sd = "SELL" → r1.side = "BUY" ∧ r2.side = "BUY") ∧
      r1.otype = "STOP_MARKET" ∧ r2.otype = "TAKE_PROFIT_MARKET" ∧
      r1.quantity = roundTo q info.quantityPrecision ∧
      r2.quantity = r1.quantity ∧
      r1.stopPrice = some (roundTo sp info.pricePrecision) ∧
      r2.stopPrice = some (roundTo lp info.pricePrecision) ∧
      r1.otype ≠ "LIMIT" ∧ r2.otype ≠ "LIMIT" := by
  refine
    ⟨{ symbol := s, side := if pyUpper sd == "BUY" then "SELL" else "BUY",
       otype := "STOP_MARKET", quantity := roundTo q info.quantityPrecision,
       stopPrice := some (roundTo sp info.pricePrecision),
       reduceOnly := some ro },
     { symbol := s, side := if pyUpper sd == "BUY" then "SELL" else "BUY",
       otype := "TAKE_PROFIT_MARKET", quantity := roundTo q info.quantityPrecision,
       stopPrice := some (roundTo lp info.pricePrecision),
       reduceOnly := some ro },
     ?_, ?_, ?_, by simp, by simp, by simp, by simp, by simp, by simp,
     by simp, by simp⟩
  · unfold place_oco_order
    rw [hsym, hside, validate_quantity_eq_true hq, validate_price_eq_true hp,
      validate_price_eq_true hsp, validate_price_eq_true hlp]
    simp [hinfo, h0, h1]
  · intro h
    simp [h]
  · intro h
    have : (pyUpper sd == "BUY") = false := by simp [h]
    simp [this]

/-- Witness for C9: a BUY-side OCO in the benign environment places a
SELL STOP_MARKET and a SELL TAKE_PROFIT_MARKET order. -/
theorem oco_success_shape_check :
    ∃ r1 r2 : OrderRequest,
      place_oco_order envA "BTCUSDT" "BUY" 5 100 90 110 false =
        (some { stop_loss := { orderId := 0 }, take_profit := { orderId := 1 } },
          [.fetchInfo "BTCUSDT", .fetchInfo "BTCUSDT", .fetchInfo "BTCUSDT",
            .createOrder r1, .createOrder r2]) ∧
      (pyUpper "BUY" = "BUY" → r1.side = "SELL" ∧ r2.side = "SELL") ∧
      (pyUpper "BUY" = "SELL" → r1.side = "BUY" ∧ r2.side = "BUY") ∧
      r1.otype = "STOP_MARKET" ∧ r2.otype = "TAKE_PROFIT_MARKET" ∧
      r1.quantity = roundTo 5 ({ quantityPrecision := 3, pricePrecision := 2 } :
        SymbolInfo).quantityPrecision ∧
      r2.quantity = r1.quantity ∧
      r1.stopPrice = some (roundTo 90 ({ quantityPrecision := 3, pricePrecision := 2 } :
        SymbolInfo).pricePrecision) ∧
      r2.stopPrice = some (roundTo 110 ({ quantityPrecision := 3, pricePrecision := 2 } :
        SymbolInfo).pricePrecision) ∧
      r1.otype ≠ "LIMIT" ∧ r2.otype ≠ "LIMIT" :=
  oco_success_shape envA "BTCUSDT" "BUY" 5 100 90 110 false
    { quantityPrecision := 3, pricePrecision := 2 }
    { orderId := 0 } { orderId := 1 }
    (by decide) (by decide) (by norm_num) (by norm_num) (by norm_num)
    (by norm_num) (fun _ => rfl) (fun _ => rfl) (fun _ => rfl)

/-- Witness for C1 at `L = 1`, `U = 3`, `N = 2` (ladder `[1, 2, 3]`). -/

theorem grid_ladder_points_check :
    (gridPrices 1 3 2).length = 3 ∧ (gridPrices 1 3 2)[0]? = some 1 ∧
    (gridPrices 1 3 2)[2]? = some 3 := by
  obtain ⟨h1, _, _, h4, h5⟩ :=
    grid_ladder_points 1 3 2 (by norm_num) (by norm_num) (by norm_num)
  exact ⟨by simpa using h1, h4, h5⟩

end BinanceBot
